import Mathlib

/-!
Verification of the front-matter codec and configuration store of the
`claude-master` dashboard (files `utils/frontmatter.py` and
`config/claude_config.py`), via a shallow embedding.

Strings are modelled as lists of characters (`Str`), Python dictionaries as
association lists that preserve insertion order (`dictSet` reproduces
Python's "update value in place, append new key at the end" semantics),
raised exceptions as `Except` errors, and wall-clock time as a natural
number of seconds (milliseconds for the watcher).  The PyYAML dependency is
modelled on the restricted document class this repository actually produces
and consumes: flat block mappings whose keys and values are plain scalars
written `key: value`, the empty flow mapping, block sequences of plain
scalars, and single plain scalars.
-/

/-- Character strings, modelled as lists of characters so that the byte-level
operations of the Python source (slicing, searching, replacing) can be
reasoned about directly. -/
abbrev Str := List Char

/-- Python dictionary lookup on an insertion-ordered association list:
the value at the first matching key. -/
def alookup (m : List (Str × α)) (k : Str) : Option α :=
  match m with
  | [] => none
  | p :: rest => if p.1 = k then some p.2 else alookup rest k

/-- Python dictionary assignment `m[k] = v`: if the key is present its value
is replaced in place (keeping its position); otherwise the pair is appended
at the end, matching the insertion-order semantics of `dict`. -/
def dictSet (m : List (Str × α)) (k : Str) (v : α) : List (Str × α) :=
  match m with
  | [] => [(k, v)]
  | p :: rest => if p.1 = k then (k, v) :: rest else p :: dictSet rest k v

/-- First-some choice on options, used to state how a merged dictionary
resolves lookups. -/
def optOr (a b : Option α) : Option α :=
  match a with
  | some v => some v
  | none => b

/-- Index of the first occurrence of `pat` as a contiguous sublist, the way
`re` locates the earliest match of a literal (used to model the non-greedy
`(.*?)` group of the front-matter regex). -/
def findSub (pat : Str) : Str → Option Nat
  | [] => if pat.isPrefixOf ([] : Str) then some 0 else none
  | c :: rest =>
    if pat.isPrefixOf (c :: rest) then some 0
    else (findSub pat rest).map (· + 1)

/-- Split a string on a separator character, Python's `str.split(c)`. -/
def splitOnChar (c : Char) : Str → List Str
  | [] => [[]]
  | x :: rest =>
    match splitOnChar c rest with
    | [] => [[]]
    | h :: t => if x = c then [] :: h :: t else (x :: h) :: t

/-- Whitespace characters stripped by Python's `str.rstrip()`. -/
def isPySpace (c : Char) : Bool :=
  c = ' ' || c = '\n' || c = '\r' || c = '\t' || c = '\x0b' || c = '\x0c'

/-- Python's `str.rstrip()`: drop trailing whitespace. -/
def rstrip (s : Str) : Str := (s.reverse.dropWhile isPySpace).reverse

/-- First normalization pass of the codec, `content.replace('\r\n', '\n')`:
each non-overlapping occurrence of CR LF becomes a single LF, scanning left
to right. -/
def normCRLF : Str → Str
  | [] => []
  | [c] => [c]
  | c1 :: c2 :: rest =>
    if c1 = '\r' ∧ c2 = '\n' then '\n' :: normCRLF rest
    else c1 :: normCRLF (c2 :: rest)

/-- Line-ending normalization performed by both codec entry points:
`content.replace('\r\n', '\n').replace('\r', '\n')`. -/
def normalizeEol (s : Str) : Str :=
  (normCRLF s).map (fun c => if c = '\r' then '\n' else c)

/-- The opening delimiter `---` followed by a newline. -/
def dash4 : Str := "---\n".data

/-- The closing delimiter, a newline, `---`, and a newline. -/
def nl5 : Str := "\n---\n".data

/-- Two consecutive delimiter lines, the empty-front-matter form. -/
def dash8 : Str := "---\n---\n".data

/-- The literal `...` suffix the serializer strips. -/
def dots3 : Str := "...".data

/-- The key under which the document body is stored. -/
def contentK : Str := "content".data

/-- Model of the regex `^---\n(.*?)\n---\n([\s\S]*)` with `re.DOTALL`:
if the text starts with a `---` line, the non-greedy group captures up to
the first later `\n---\n`, and the rest is the body. -/
def splitFM (s : Str) : Option (Str × Str) :=
  if dash4.isPrefixOf s then
    let t := s.drop 4
    match findSub nl5 t with
    | some i => some (t.take i, t.drop (i + 5))
    | none => none
  else none

/-- Model of the fallback regex `^---\n---\n([\s\S]*)`: empty front matter
immediately followed by the body. -/
def splitEmptyFM (s : Str) : Option Str :=
  if dash8.isPrefixOf s then some (s.drop 8) else none

/-- Result of YAML decoding in the modelled subset: the empty document
(Python `None`), a plain scalar, a block sequence, or a block mapping. -/
inductive YDoc where
  | ynull
  | yscalar (s : Str)
  | yseq (xs : List Str)
  | ymap (m : List (Str × Str))
deriving DecidableEq

/-- The separator of a mapping line, colon and space. -/
def colonSpace : Str := ": ".data

/-- The leading marker of a block-sequence line, dash and space. -/
def dashSpace : Str := "- ".data

/-- The empty flow mapping literal. -/
def emptyFlowMap : Str := "\x7b\x7d".data

/-- Split a line `key: value` at its first colon-space. -/
def lineKV (l : Str) : Option (Str × Str) :=
  match findSub colonSpace l with
  | some i => some (l.take i, l.drop (i + 2))
  | none => none

/-- Decode a list of lines as a block mapping: each line must be
`key: value`; a second `: ` inside the value is the "mapping values are not
allowed here" error PyYAML raises on input such as `key: value: invalid`.
Duplicate keys keep the last value at the first position, as `dict`
construction does. -/
def loadMapping (ls : List Str) : Except Unit (List (Str × Str)) :=
  ls.foldlM
    (fun acc l =>
      match lineKV l with
      | none => .error ()
      | some (k, v) =>
        if (findSub colonSpace v).isSome then .error ()
        else .ok (dictSet acc k v))
    []

/-- Model of `yaml.safe_load` on the restricted document class described in
the file header: blank input decodes to the empty document, `\x7b\x7d` to the
empty mapping, lines of `- item` to a sequence, lines of `key: value` to a
mapping (with `key: value: invalid` raising a YAML error), and a single
other line to a plain scalar.  Blank lines are ignored. -/
def yamlLoad (s : Str) : Except Unit YDoc :=
  let ls := (splitOnChar '\n' s).filter (fun l => l.any (fun ch => ch ≠ ' '))
  match ls with
  | [] => .ok .ynull
  | [l] =>
    if l = emptyFlowMap then .ok (.ymap [])
    else if (lineKV l).isSome then (loadMapping [l]).map .ymap
    else if dashSpace.isPrefixOf l then .ok (.yseq [l.drop 2])
    else .ok (.yscalar l)
  | ls =>
    if ls.all (fun l => dashSpace.isPrefixOf l) then
      .ok (.yseq (ls.map (fun l => l.drop 2)))
    else (loadMapping ls).map .ymap

/-- Model of `yaml.dump(m, default_flow_style=False, sort_keys=False)` on
mappings of plain scalars: one `key: value` line per entry in insertion
order, each terminated by a newline; the empty mapping dumps as the empty
flow mapping on its own line. -/
def yamlDump (m : List (Str × Str)) : Str :=
  match m with
  | [] => emptyFlowMap ++ "\n".data
  | _ => (m.map (fun p => p.1 ++ colonSpace ++ p.2 ++ "\n".data)).flatten

/-- Exceptions the embedded functions can raise. -/
inductive PyErr where
  | typeError
  | attributeError
deriving DecidableEq

deriving instance DecidableEq for Except

/-- Embedding of `parse_frontmatter` (utils/frontmatter.py, lines 6-34):
normalize line endings, split off the front-matter block, YAML-decode it
(`yaml.YAMLError` degrades to a body-only record), apply `or \x7b\x7d` which
turns falsy results (None, empty scalar, empty sequence, empty mapping) into
the empty mapping, then execute `metadata["content"] = body_text` — which
raises `TypeError` when the decoded value is a non-empty scalar or sequence.
Without any delimiter match the original, un-normalized input becomes the
body. -/
def parse_frontmatter (content : Str) : Except PyErr (List (Str × Str)) :=
  let nc := normalizeEol content
  match splitFM nc with
  | some (fm, body) =>
    match yamlLoad fm with
    | .error _ => .ok [(contentK, body)]
    | .ok .ynull => .ok [(contentK, body)]
    | .ok (.ymap m) => .ok (dictSet m contentK body)
    | .ok (.yscalar v) =>
      if v = [] then .ok [(contentK, body)] else .error .typeError
    | .ok (.yseq xs) =>
      if xs = [] then .ok [(contentK, body)] else .error .typeError
  | none =>
    match splitEmptyFM nc with
    | some body => .ok [(contentK, body)]
    | none => .ok [(contentK, content)]

/-- Merging step of `update_frontmatter`, `metadata.update(updates)`:
each update entry overwrites an existing key in place or is appended. -/
def mergeDict (m updates : List (Str × Str)) : List (Str × Str) :=
  updates.foldl (fun acc p => dictSet acc p.1 p.2) m

/-- Metadata-recovery phase of `update_frontmatter` (utils/frontmatter.py,
lines 50-68 plus the implicit behavior of line 71), applied to the
already-normalized document: recover existing metadata and body (a YAML
error yields empty metadata; without any delimiter match the whole
normalized document is the body; a non-empty scalar or sequence survives
the `or` guard and makes `metadata.update(updates)` raise
`AttributeError`). -/
def extractMeta (nc : Str) : Except PyErr (List (Str × Str) × Str) :=
  match splitFM nc with
  | some (fm, body) =>
    match yamlLoad fm with
    | .error _ => .ok ([], body)
    | .ok .ynull => .ok ([], body)
    | .ok (.ymap m) => .ok (m, body)
    | .ok (.yscalar v) =>
      if v = [] then .ok ([], body) else .error .attributeError
    | .ok (.yseq xs) =>
      if xs = [] then .ok ([], body) else .error .attributeError
  | none =>
    match splitEmptyFM nc with
    | some body => .ok ([], body)
    | none => .ok ([], nc)

/-- The post-processing the serializer applies to the dumped metadata
block: strip trailing whitespace, and when the result ends in `...` drop
those three characters and strip trailing whitespace again. -/
def stripDumpEnd (nf : Str) : Str :=
  if dots3.isSuffixOf nf then rstrip (nf.take (nf.length - 3)) else nf

/-- Serialization tail of `update_frontmatter`: merge, re-dump, strip, and
rebuild the document around the body. -/
def rebuildDoc (metadata : List (Str × Str)) (updates : List (Str × Str))
    (body : Str) : Str :=
  dash4 ++ stripDumpEnd (rstrip (yamlDump (mergeDict metadata updates))) ++
    nl5 ++ body

/-- Embedding of `update_frontmatter` (utils/frontmatter.py, lines 37-81):
normalize line endings, recover existing metadata and body, merge the
updates into the metadata, re-dump it, strip a trailing `...` (and trailing
whitespace again) from the dumped block, and rebuild the document as
delimiter, block, delimiter, normalized body. -/
def update_frontmatter (content : Str) (updates : List (Str × Str)) :
    Except PyErr Str :=
  match extractMeta (normalizeEol content) with
  | .error e => .error e
  | .ok (metadata, body) => .ok (rebuildDoc metadata updates body)

/-! ### Watcher debounce (config/claude_config.py, `ConfigWatcher`)

The watcher is modelled as a state machine driven by a time-sorted list of
matching notification times (naturals, in milliseconds).  The state is the
deadline of the pending `threading.Timer`, if any; `_trigger_callback`
returns immediately when `_pending` is set, and otherwise sets `_pending`
and starts a timer `debounce` in the future; `_run_callback` clears the
state and invokes the callback.  `simulateWatcher` folds the notifications
in order, firing the timer (and recording the callback time) whenever its
deadline has passed before the next notification. -/

/-- The debounce interval, 0.5 seconds, in milliseconds. -/
def debounceMs : Nat := 500

/-- Callback times produced by `ConfigWatcher._trigger_callback` /
`_run_callback` for a sorted list of matching notification times: a
notification that finds no timer pending starts one `d` in the future; a
notification that arrives while the timer is pending is ignored (the
`_pending` early return, which makes the cancel-and-restart branch
unreachable); a pending timer fires at its deadline. -/
def simulateWatcher (d : Nat) : Option Nat → List Nat → List Nat
  | some dl, [] => [dl]
  | none, [] => []
  | some dl, t :: rest =>
    if dl ≤ t then dl :: simulateWatcher d (some (t + d)) rest
    else simulateWatcher d (some dl) rest
  | none, t :: rest => simulateWatcher d (some (t + d)) rest

/-- Modelled from the spec: the trailing-edge debounce the specification
describes, in which every notification resets (cancels and restarts) the
pending timer, so a callback fires one interval after the last notification
of a burst. -/
def simulateTrailing (d : Nat) : Option Nat → List Nat → List Nat
  | some dl, [] => [dl]
  | none, [] => []
  | some dl, t :: rest =>
    if dl ≤ t then dl :: simulateTrailing d (some (t + d)) rest
    else simulateTrailing d (some (t + d)) rest
  | none, t :: rest => simulateTrailing d (some (t + d)) rest

/-! ### Configuration store (config/claude_config.py, `ClaudeConfig`)

The store instance is a record of its root directory and the TTL cache
(value map and timestamp map); the filesystem is an explicit snapshot
argument; `time.time()` is an explicit natural-number argument (seconds).
JSON values are modelled as strings and objects, the only shapes the
settings logic distinguishes. -/

/-- JSON values as far as the settings accessor distinguishes them. -/
inductive JVal where
  | jstr (s : Str)
  | jobj (m : List (Str × JVal))

/-- A parsed agent or skill record: the front-matter record of the file. -/
abbrev Record := List (Str × Str)

/-- Values held in the TTL cache. -/
inductive CVal where
  | recs (l : List Record)
  | settings (m : List (Str × JVal))

/-- The store: root directory plus the cache dictionaries `_cache` and
`_cache_timestamps`. -/
structure Cfg where
  claude_dir : Str
  cache : List (Str × CVal)
  stamps : List (Str × Nat)

/-- Filesystem snapshot: the agents directory (if present) as a list of
`(stem, read result)` pairs for its `*.md` files, the skills directory (if
present) as a list of directory or symlink entries `(name, SKILL.md read
result if that file exists)`, and `settings.json` (if present) as either a
JSON decode error message or the decoded object. -/
structure FS where
  agentsDir : Option (List (Str × Except Unit Str))
  skillsDir : Option (List (Str × Option (Except Unit Str)))
  settingsFile : Option (Except Str (List (Str × JVal)))

/-- The cache TTL, `_cache_ttl = 5` seconds. -/
def cacheTTL : Nat := 5

/-- The cache key of the agents dataset. -/
def agentsK : Str := "agents".data

/-- The cache key of the skills dataset. -/
def skillsK : Str := "skills".data

/-- The cache key of the settings dataset. -/
def settingsK : Str := "settings".data

/-- Embedding of `ClaudeConfig._get_cached`: return the cached value when
one exists and its timestamp (defaulting to 0) is younger than the TTL. -/
def getCached (cfg : Cfg) (now : Nat) (key : Str) : Option CVal :=
  match alookup cfg.cache key with
  | some v =>
    if now - ((alookup cfg.stamps key).getD 0) < cacheTTL then some v
    else none
  | none => none

/-- Embedding of `ClaudeConfig._set_cached`: store the value under the key
with the current time as its timestamp. -/
def setCached (cfg : Cfg) (now : Nat) (key : Str) (v : CVal) : Cfg :=
  { cfg with
    cache := dictSet cfg.cache key v
    stamps := dictSet cfg.stamps key now }

/-- Embedding of `ClaudeConfig.invalidate_cache`: clear both cache
dictionaries. -/
def invalidateCache (cfg : Cfg) : Cfg :=
  { cfg with cache := [], stamps := [] }

/-- The reserved record key `id`. -/
def idK : Str := "id".data

/-- The reserved record key `path`. -/
def pathK : Str := "path".data

/-- Path of an agent file, `str(file)` for `agents/<stem>.md` under the
root directory. -/
def agentPath (dir stem : Str) : Str :=
  dir ++ "/agents/".data ++ stem ++ ".md".data

/-- Path of a skill file, `str(skill_file)` for `skills/<name>/SKILL.md`
under the root directory. -/
def skillPath (dir name : Str) : Str :=
  dir ++ "/skills/".data ++ name ++ "/SKILL.md".data

/-- The scan loop of `get_agents`: unreadable files (`OSError`,
`PermissionError`, `UnicodeDecodeError`) are skipped; each readable file is
parsed and tagged with `id` (the stem) and `path`; an exception escaping
`parse_frontmatter` is not caught and propagates. -/
def scanAgents (dir : Str) (files : List (Str × Except Unit Str)) :
    Except PyErr (List Record) :=
  files.foldlM
    (fun acc f =>
      match f.2 with
      | .error _ => .ok acc
      | .ok text => do
        let d ← parse_frontmatter text
        .ok (acc ++ [dictSet (dictSet d idK f.1) pathK (agentPath dir f.1)]))
    []

/-- The scan loop of `get_skills`: entries without a `SKILL.md` and entries
whose `SKILL.md` cannot be read are skipped; the rest are parsed and tagged
with `id` (the directory name) and `path`. -/
def scanSkills (dir : Str) (items : List (Str × Option (Except Unit Str))) :
    Except PyErr (List Record) :=
  items.foldlM
    (fun acc it =>
      match it.2 with
      | none => .ok acc
      | some (.error _) => .ok acc
      | some (.ok text) => do
        let d ← parse_frontmatter text
        .ok (acc ++ [dictSet (dictSet d idK it.1) pathK (skillPath dir it.1)]))
    []

/-- Embedding of `ClaudeConfig.get_agents`: serve from the cache when
fresh; return an empty list, uncached, when the agents directory is absent;
otherwise scan it and cache the result before returning. -/
def get_agents (cfg : Cfg) (fs : FS) (now : Nat) :
    Except PyErr (CVal × Cfg) :=
  match getCached cfg now agentsK with
  | some v => .ok (v, cfg)
  | none =>
    match fs.agentsDir with
    | none => .ok (.recs [], cfg)
    | some files => do
      let l ← scanAgents cfg.claude_dir files
      .ok (.recs l, setCached cfg now agentsK (.recs l))

/-- Embedding of `ClaudeConfig.get_skills`: same shape as `get_agents` over
the skills directory. -/
def get_skills (cfg : Cfg) (fs : FS) (now : Nat) :
    Except PyErr (CVal × Cfg) :=
  match getCached cfg now skillsK with
  | some v => .ok (v, cfg)
  | none =>
    match fs.skillsDir with
    | none => .ok (.recs [], cfg)
    | some items => do
      let l ← scanSkills cfg.claude_dir items
      .ok (.recs l, setCached cfg now skillsK (.recs l))

/-- The settings key `env`. -/
def envK : Str := "env".data

/-- The settings key `error` of the JSON-failure sentinel. -/
def errorK : Str := "error".data

/-- The prefix of the JSON-failure sentinel message,
`"Invalid JSON in settings.json: "`. -/
def jsonErrMsg : Str := "Invalid JSON in settings.json: ".data

/-- The fixed masking token, eight bullets. -/
def maskTok : Str := "••••••••".data

/-- Uppercase a string, `str.upper()` on the ASCII range the predicate
uses. -/
def upperStr (s : Str) : Str := s.map Char.toUpper

/-- The sensitivity predicate of `get_settings`:
`any(word in key.upper() for word in ["KEY", "TOKEN", "SECRET"])`. -/
def sensitiveKey (k : Str) : Bool :=
  (findSub ("KEY".data) (upperStr k)).isSome ||
  (findSub ("TOKEN".data) (upperStr k)).isSome ||
  (findSub ("SECRET".data) (upperStr k)).isSome

/-- The masking loop over the `env` object: every entry with a sensitive
key has its value replaced by the fixed token. -/
def maskEnvObj (m : List (Str × JVal)) : List (Str × JVal) :=
  m.map (fun p => if sensitiveKey p.1 then (p.1, .jstr maskTok) else p)

/-- The masking step of `get_settings`: when an `env` entry holds an
object, mask its sensitive entries in place; anything else is left
untouched (iterating a string value never matches the three-letter-plus
words, and no assignment happens). -/
def maskSettings (s : List (Str × JVal)) : List (Str × JVal) :=
  match alookup s envK with
  | some (.jobj m) => dictSet s envK (.jobj (maskEnvObj m))
  | _ => s

/-- Embedding of `ClaudeConfig.get_settings`: serve from the cache when
fresh; return an empty mapping, uncached, when `settings.json` is absent;
return the `error` sentinel mapping, uncached, when it is not valid JSON;
otherwise mask sensitive `env` entries and cache the result before
returning. -/
def get_settings (cfg : Cfg) (fs : FS) (now : Nat) : CVal × Cfg :=
  match getCached cfg now settingsK with
  | some v => (v, cfg)
  | none =>
    match fs.settingsFile with
    | none => (.settings [], cfg)
    | some (.error e) =>
      (.settings [(errorK, .jstr (jsonErrMsg ++ e))], cfg)
    | some (.ok s) =>
      let masked := maskSettings s
      (.settings masked, setCached cfg now settingsK (.settings masked))

/-! ### Singleton construction (`ClaudeConfig.__new__` / `__init__`) -/

/-- The default root directory, `Path.home() / ".claude"`, modelled as an
abstract constant path. -/
def defaultClaudeDir : Str := "~/.claude".data

/-- A freshly initialized store: the given root directory and empty cache
dictionaries. -/
def freshCfg (dir : Str) : Cfg :=
  { claude_dir := dir, cache := [], stamps := [] }

/-- Embedding of constructing `ClaudeConfig(claude_dir)` against the
module-level singleton state: the first construction initializes a fresh
instance with the resolved directory; a later construction with the same
resolved directory returns the stored instance unchanged; a later
construction with a different directory raises `ValueError` and leaves the
stored instance untouched.  The result is the new singleton state paired
with the returned instance. -/
def constructConfig (inst : Option Cfg) (d : Option Str) :
    Except Str (Cfg × Cfg) :=
  let dir := d.getD defaultClaudeDir
  match inst with
  | none => .ok (freshCfg dir, freshCfg dir)
  | some c =>
    if c.claude_dir = dir then .ok (c, c)
    else
      .error ("ClaudeConfig already initialized with ".data ++ c.claude_dir
        ++ ", cannot reinitialize with ".data ++ dir)

/-! ### Dictionary lemmas -/

theorem alookup_dictSet_self (m : List (Str × α)) (k : Str) (v : α) :
    alookup (dictSet m k v) k = some v := by
  induction m with
  | nil => simp [dictSet, alookup]
  | cons p rest ih =>
    by_cases h : p.1 = k
    · simp [dictSet, h, alookup]
    · simp [dictSet, h, alookup, ih]

theorem alookup_dictSet_ne (m : List (Str × α)) (k k' : Str) (v : α)
    (h : k' ≠ k) : alookup (dictSet m k v) k' = alookup m k' := by
  have hkk : ¬ (k = k') := fun hh => h hh.symm
  induction m with
  | nil => simp [dictSet, alookup, hkk]
  | cons p rest ih =>
    by_cases hp : p.1 = k
    · have hpk : ¬ (p.1 = k') := by rw [hp]; exact hkk
      simp [dictSet, hp, alookup, hkk, hpk]
    · simp [dictSet, hp, alookup, ih]

theorem alookup_eq_none (m : List (Str × α)) (k : Str)
    (h : k ∉ m.map Prod.fst) : alookup m k = none := by
  induction m with
  | nil => rfl
  | cons p rest ih =>
    simp only [List.map_cons, List.mem_cons] at h
    push_neg at h
    have h1 : ¬ (p.1 = k) := fun hh => h.1 hh.symm
    simp [alookup, h1, ih h.2]

theorem keys_dictSet (m : List (Str × α)) (k : Str) (v : α) :
    (dictSet m k v).map Prod.fst =
      if k ∈ m.map Prod.fst then m.map Prod.fst
      else m.map Prod.fst ++ [k] := by
  induction m with
  | nil =>
    rw [if_neg]
    · rfl
    · rw [List.map_nil]
      exact List.not_mem_nil k
  | cons p rest ih =>
    by_cases hp : p.1 = k
    · have hmem : k ∈ (p :: rest).map Prod.fst := by
        rw [List.map_cons, hp]
        exact List.mem_cons_self k _
      rw [if_pos hmem]
      simp only [dictSet, hp, ite_true, List.map_cons]
    · have hcons : (k ∈ (p :: rest).map Prod.fst) ↔ (k ∈ rest.map Prod.fst) := by
        rw [List.map_cons, List.mem_cons]
        exact or_iff_right (fun hh => hp hh.symm)
      by_cases hmem : k ∈ rest.map Prod.fst
      · rw [if_pos (hcons.mpr hmem)]
        simp only [dictSet, if_neg hp, List.map_cons, ih, if_pos hmem]
      · rw [if_neg (fun h => hmem (hcons.mp h))]
        simp only [dictSet, if_neg hp, List.map_cons, ih, if_neg hmem,
          List.cons_append]

theorem alookup_mergeDict (m U : List (Str × Str))
    (hU : (U.map Prod.fst).Nodup) (k : Str) :
    alookup (mergeDict m U) k = optOr (alookup U k) (alookup m k) := by
  induction U generalizing m with
  | nil => simp [mergeDict, alookup, optOr]
  | cons p rest ih =>
    simp only [List.map_cons, List.nodup_cons] at hU
    have step : mergeDict m (p :: rest) = mergeDict (dictSet m p.1 p.2) rest := rfl
    rw [step, ih _ hU.2]
    by_cases hk : p.1 = k
    · have h2 : alookup rest k = none := by
        rw [← hk]; exact alookup_eq_none rest p.1 hU.1
      have h3 : alookup (dictSet m p.1 p.2) k = some p.2 := by
        rw [← hk]; exact alookup_dictSet_self m p.1 p.2
      simp [alookup, hk, h2, h3, optOr, alookup_dictSet_self]
    · have h4 : alookup (dictSet m p.1 p.2) k = alookup m k :=
        alookup_dictSet_ne m p.1 k p.2 (fun hh => hk hh.symm)
      simp [alookup, hk, h4]

theorem keys_mergeDict (m U : List (Str × Str))
    (hU : (U.map Prod.fst).Nodup) :
    (mergeDict m U).map Prod.fst =
      m.map Prod.fst ++
        (U.map Prod.fst).filter (fun k => decide (k ∉ m.map Prod.fst)) := by
  induction U generalizing m with
  | nil => simp [mergeDict]
  | cons p rest ih =>
    simp only [List.map_cons, List.nodup_cons] at hU
    have step : mergeDict m (p :: rest) = mergeDict (dictSet m p.1 p.2) rest := rfl
    by_cases hk : p.1 ∈ m.map Prod.fst
    · have hkeys : (dictSet m p.1 p.2).map Prod.fst = m.map Prod.fst := by
        rw [keys_dictSet, if_pos hk]
      rw [step, ih _ hU.2, hkeys, List.map_cons, List.filter_cons,
        if_neg (fun h => (of_decide_eq_true h) hk)]
    · have hkeys :
          (dictSet m p.1 p.2).map Prod.fst = m.map Prod.fst ++ [p.1] := by
        rw [keys_dictSet, if_neg hk]
      have hfilter :
          (rest.map Prod.fst).filter
              (fun k => decide (k ∉ (m.map Prod.fst ++ [p.1]))) =
            (rest.map Prod.fst).filter (fun k => decide (k ∉ m.map Prod.fst)) := by
        apply List.filter_congr
        intro x hx
        have hxp : ¬ (x = p.1) := fun hh => hU.1 (hh ▸ hx)
        have hiff : (x ∈ (m.map Prod.fst ++ [p.1])) ↔ (x ∈ m.map Prod.fst) := by
          rw [List.mem_append, List.mem_singleton]
          exact or_iff_left hxp
        exact decide_eq_decide.mpr (not_congr hiff)
      rw [step, ih _ hU.2, hkeys, hfilter, List.map_cons, List.filter_cons,
        if_pos (decide_eq_true hk), List.append_assoc, List.singleton_append]

theorem alookup_maskEnvObj (m : List (Str × JVal)) (k : Str) :
    alookup (maskEnvObj m) k =
      (alookup m k).map
        (fun v => if sensitiveKey k then JVal.jstr maskTok else v) := by
  induction m with
  | nil => rfl
  | cons p rest ih =>
    by_cases hs : sensitiveKey p.1 <;> by_cases hp : p.1 = k
    · rw [hp] at hs
      simp [maskEnvObj, alookup, hs, hp]
    · simpa [maskEnvObj, alookup, hs, hp] using ih
    · rw [hp] at hs
      simp [maskEnvObj, alookup, hs, hp]
    · simpa [maskEnvObj, alookup, hs, hp] using ih

/-! ### Claims about the front-matter codec -/

/-- Claim C1: the round-trip property fails on the code.  For the mapping
with single entry `a` holding the string `x...` and body `body`, Serialize
with empty updates truncates the value to `x` (the trailing-`...` strip
intended for the YAML end-of-document marker removes value content), so
re-parsing yields `x`, not `x...`. -/
theorem roundtrip_dots_truncation :
    update_frontmatter ("---\na: x...\n---\nbody".data) [] =
      .ok ("---\na: x\n---\nbody".data) ∧
    parse_frontmatter ("---\na: x\n---\nbody".data) =
      .ok [(("a".data), ("x".data)), (contentK, "body".data)] ∧
    alookup [(("a".data), ("x".data)), (contentK, "body".data)] ("a".data) ≠
      some ("x...".data) := by
  refine ⟨by decide, by decide, by decide⟩

/-- Claim C2 counterexample: a metadata block that decodes to a bare
scalar makes Parse raise `TypeError` (the `metadata["content"] = body`
assignment on a string), rather than return a body-only record. -/
theorem parse_scalar_block_raises :
    parse_frontmatter ("---\nhello\n---\nbody".data) = .error .typeError := by
  decide

/-- Claim C2, amended: when the delimited metadata block fails YAML
decoding with a syntax error, Parse returns the body-only record without
raising; but a block that decodes to a non-empty non-mapping value (bare
scalar or sequence) makes Parse raise a `TypeError`. -/
theorem parse_degrades_characterization (s fm body : Str)
    (h : splitFM (normalizeEol s) = some (fm, body)) :
    (∀ e, yamlLoad fm = .error e →
      parse_frontmatter s = .ok [(contentK, body)]) ∧
    (∀ v, yamlLoad fm = .ok (.yscalar v) → v ≠ [] →
      parse_frontmatter s = .error .typeError) ∧
    (∀ xs, yamlLoad fm = .ok (.yseq xs) → xs ≠ [] →
      parse_frontmatter s = .error .typeError) := by
  refine ⟨?_, ?_, ?_⟩
  · intro e he
    simp [parse_frontmatter, h, he]
  · intro v hv hne
    simp [parse_frontmatter, h, hv, hne]
  · intro xs hxs hne
    simp [parse_frontmatter, h, hxs, hne]

theorem parse_degrades_witness :
    splitFM (normalizeEol ("---\nkey: value: invalid\n---\nBody".data)) =
      some (("key: value: invalid".data), ("Body".data)) ∧
    yamlLoad ("key: value: invalid".data) = .error () ∧
    parse_frontmatter ("---\nkey: value: invalid\n---\nBody".data) =
      .ok [(contentK, "Body".data)] :=
  ⟨by decide, by decide,
    (parse_degrades_characterization ("---\nkey: value: invalid\n---\nBody".data)
      ("key: value: invalid".data) ("Body".data) (by decide)).1 () (by decide)⟩

/-- Claim C3 counterexample: a body containing CRLF does not appear in the
Serialize output byte-for-byte; it is normalized to LF. -/
theorem serialize_normalizes_crlf_body :
    update_frontmatter ("---\na: b\n---\nx\r\ny".data) [] =
      .ok ("---\na: b\n---\nx\ny".data) ∧
    ("---\na: b\n---\nx\ny".data : Str) ≠ ("---\na: b\n---\nx\r\ny".data) := by
  refine ⟨by decide, by decide⟩

/-- Claim C3, amended: Serialize rebuilds the document as the re-encoded
merged metadata (updates overwrite existing keys in place, keys only in the
updates are appended in update order) between `---` delimiters, followed by
the body of the line-ending-normalized original (CRLF and CR become LF, so
not byte-for-byte); when the re-encoded block does not end in `...` the
block is exactly the dump of the merged mapping. -/
theorem update_frontmatter_merge_correct (s body : Str)
    (m U : List (Str × Str))
    (h1 : extractMeta (normalizeEol s) = .ok (m, body))
    (hU : (U.map Prod.fst).Nodup) :
    update_frontmatter s U = .ok (rebuildDoc m U body) ∧
    (dots3.isSuffixOf (rstrip (yamlDump (mergeDict m U))) = false →
      rebuildDoc m U body =
        dash4 ++ rstrip (yamlDump (mergeDict m U)) ++ nl5 ++ body) ∧
    (∀ k, alookup (mergeDict m U) k = optOr (alookup U k) (alookup m k)) ∧
    (mergeDict m U).map Prod.fst =
      m.map Prod.fst ++
        (U.map Prod.fst).filter (fun k => decide (k ∉ m.map Prod.fst)) := by
  refine ⟨?_, ?_, fun k => alookup_mergeDict m U hU k, keys_mergeDict m U hU⟩
  · simp [update_frontmatter, h1]
  · intro hdots
    simp [rebuildDoc, stripDumpEnd, hdots]

theorem update_frontmatter_merge_witness :
    extractMeta (normalizeEol ("---\na: b\n---\nBody".data)) =
      .ok ([(("a".data), ("b".data))], "Body".data) ∧
    ((([(("c".data), ("d".data))] : List (Str × Str)).map Prod.fst).Nodup) ∧
    update_frontmatter ("---\na: b\n---\nBody".data)
        [(("c".data), ("d".data))] =
      .ok (rebuildDoc [(("a".data), ("b".data))] [(("c".data), ("d".data))]
        ("Body".data)) :=
  ⟨by decide, by decide,
    (update_frontmatter_merge_correct ("---\na: b\n---\nBody".data) ("Body".data)
      [(("a".data), ("b".data))] [(("c".data), ("d".data))]
      (by decide) (by decide)).1⟩

/-- Claim C4: the debounce is not trailing-edge with timer reset.  For
notifications at 0 ms and 300 ms with a 500 ms debounce, the watcher fires
its single callback at 500 ms — one interval after the FIRST notification
(the `_pending` early return drops later notifications and the
cancel-and-restart branch is unreachable) — while the specified
trailing-edge debounce would fire at 800 ms. -/
theorem debounce_fires_after_first :
    simulateWatcher debounceMs none [0, 300] = [500] ∧
    simulateTrailing debounceMs none [0, 300] = [800] ∧
    ((500 : Nat) ≠ 800) := by
  refine ⟨by decide, by decide, by decide⟩

/-- Claim C10: when neither delimiter pattern matches the normalized
input, Parse returns a record whose only key is `content`, holding the
original input byte-for-byte (not the normalized copy). -/
theorem parse_no_delimiter_fallback (s : Str)
    (h1 : splitFM (normalizeEol s) = none)
    (h2 : splitEmptyFM (normalizeEol s) = none) :
    parse_frontmatter s = .ok [(contentK, s)] := by
  simp [parse_frontmatter, h1, h2]

theorem parse_no_delimiter_witness :
    splitFM (normalizeEol ("hello\r\nworld".data)) = none ∧
    splitEmptyFM (normalizeEol ("hello\r\nworld".data)) = none ∧
    parse_frontmatter ("hello\r\nworld".data) =
      .ok [(contentK, "hello\r\nworld".data)] :=
  ⟨by decide, by decide,
    parse_no_delimiter_fallback ("hello\r\nworld".data) (by decide) (by decide)⟩

/-! ### Claims about the configuration store -/

/-- A sample root directory for concrete instantiations. -/
def sampleDir : Str := "/claude".data

/-- A different sample root directory. -/
def otherDir : Str := "/elsewhere".data

/-- A freshly constructed store over the sample directory. -/
def sampleCfg : Cfg := freshCfg sampleDir

/-- A filesystem snapshot with no agents directory, no skills directory and
no settings file. -/
def fsEmpty : FS :=
  { agentsDir := none, skillsDir := none, settingsFile := none }

/-- Claim C5 counterexample: on a cache miss with the agents directory
absent, `get_agents` returns the empty list WITHOUT storing it in the
cache — the returned store still has no `agents` entry. -/
theorem get_agents_absent_dir_skips_cache :
    get_agents sampleCfg fsEmpty 0 = .ok (.recs [], sampleCfg) ∧
    alookup sampleCfg.cache agentsK = none ∧
    alookup sampleCfg.stamps agentsK = none :=
  ⟨rfl, rfl, rfl⟩

/-- Claim C5, amended: on a cache miss the accessors store the fresh
result with a new timestamp before returning it only on the successful
scan paths; the absent-directory, absent-settings-file, and invalid-JSON
paths return their result without writing to the cache. -/
theorem accessor_cache_write_paths (cfg : Cfg) (fs : FS) (now : Nat)
    (hA : getCached cfg now agentsK = none)
    (hS : getCached cfg now skillsK = none)
    (hT : getCached cfg now settingsK = none) :
    (fs.agentsDir = none → get_agents cfg fs now = .ok (.recs [], cfg)) ∧
    (∀ files l, fs.agentsDir = some files →
      scanAgents cfg.claude_dir files = .ok l →
      get_agents cfg fs now =
        .ok (.recs l, setCached cfg now agentsK (.recs l))) ∧
    (fs.skillsDir = none → get_skills cfg fs now = .ok (.recs [], cfg)) ∧
    (∀ items l, fs.skillsDir = some items →
      scanSkills cfg.claude_dir items = .ok l →
      get_skills cfg fs now =
        .ok (.recs l, setCached cfg now skillsK (.recs l))) ∧
    (fs.settingsFile = none → get_settings cfg fs now = (.settings [], cfg)) ∧
    (∀ e, fs.settingsFile = some (.error e) →
      get_settings cfg fs now =
        (.settings [(errorK, .jstr (jsonErrMsg ++ e))], cfg)) ∧
    (∀ s, fs.settingsFile = some (.ok s) →
      get_settings cfg fs now =
        (.settings (maskSettings s),
          setCached cfg now settingsK (.settings (maskSettings s)))) ∧
    (∀ key v, alookup (setCached cfg now key v).cache key = some v ∧
      alookup (setCached cfg now key v).stamps key = some now) := by
  refine ⟨?_, ?_, ?_, ?_, ?_, ?_, ?_, ?_⟩
  · intro h
    simp [get_agents, hA, h]
  · intro files l hf hscan
    simp only [get_agents, hA, hf, hscan]
    rfl
  · intro h
    simp [get_skills, hS, h]
  · intro items l hf hscan
    simp only [get_skills, hS, hf, hscan]
    rfl
  · intro h
    simp [get_settings, hT, h]
  · intro e h
    simp [get_settings, hT, h]
  · intro s h
    simp [get_settings, hT, h]
  · intro key v
    exact ⟨alookup_dictSet_self cfg.cache key v,
      alookup_dictSet_self cfg.stamps key now⟩

/-- A sample agents directory holding one readable agent file. -/
def sampleAgentsFS : FS :=
  { agentsDir := some [(("arch".data), .ok ("---\nname: architect\n---\nBody".data))]
    skillsDir := none
    settingsFile := none }

/-- The record `get_agents` builds for the sample agent file. -/
def sampleAgentRec : Record :=
  [(("name".data), ("architect".data)), (contentK, "Body".data),
    (idK, "arch".data), (pathK, agentPath sampleDir ("arch".data))]

theorem accessor_cache_write_witness :
    getCached sampleCfg 0 agentsK = none ∧
    scanAgents sampleCfg.claude_dir
        [(("arch".data), .ok ("---\nname: architect\n---\nBody".data))] =
      .ok [sampleAgentRec] ∧
    get_agents sampleCfg sampleAgentsFS 0 =
      .ok (.recs [sampleAgentRec],
        setCached sampleCfg 0 agentsK (.recs [sampleAgentRec])) :=
  ⟨rfl, by decide,
    (accessor_cache_write_paths sampleCfg sampleAgentsFS 0 rfl rfl rfl).2.1
      [(("arch".data), .ok ("---\nname: architect\n---\nBody".data))]
      [sampleAgentRec] rfl (by decide)⟩

/-- Claim C6: while `now - timestamp < 5` the accessor returns the cached
value unchanged without consulting the filesystem (the snapshot argument is
irrelevant); at or past the TTL it rescans the current filesystem and
refreshes the cache; `invalidate_cache` removes every entry, after which
the accessor rescans even within the TTL window. -/
theorem cache_ttl_behavior (cfg : Cfg) (fs fs2 : FS) (t0 t : Nat) (v : CVal)
    (hv : alookup cfg.cache agentsK = some v)
    (ht : alookup cfg.stamps agentsK = some t0) :
    (t - t0 < cacheTTL → get_agents cfg fs t = .ok (v, cfg)) ∧
    (¬ (t - t0 < cacheTTL) → ∀ files l, fs2.agentsDir = some files →
      scanAgents cfg.claude_dir files = .ok l →
      get_agents cfg fs2 t =
        .ok (.recs l, setCached cfg t agentsK (.recs l))) ∧
    (∀ k, alookup (invalidateCache cfg).cache k = none) ∧
    (∀ files l, fs2.agentsDir = some files →
      scanAgents cfg.claude_dir files = .ok l →
      get_agents (invalidateCache cfg) fs2 t =
        .ok (.recs l,
          setCached (invalidateCache cfg) t agentsK (.recs l))) := by
  refine ⟨?_, ?_, ?_, ?_⟩
  · intro hlt
    simp [get_agents, getCached, hv, ht, hlt]
  · intro hge files l hf hscan
    simp only [get_agents, getCached, hv, ht, Option.getD_some, if_neg hge,
      hf, hscan]
    rfl
  · intro k
    simp [invalidateCache, alookup]
  · intro files l hf hscan
    simp only [get_agents, getCached, invalidateCache, alookup, hf, hscan]
    rfl

/-- A store whose agents entry was cached at time 10. -/
def cachedCfg : Cfg :=
  { claude_dir := sampleDir
    cache := [(agentsK, CVal.recs [])]
    stamps := [(agentsK, 10)] }

theorem cache_ttl_witness :
    alookup cachedCfg.cache agentsK = some (CVal.recs []) ∧
    alookup cachedCfg.stamps agentsK = some 10 ∧
    12 - 10 < cacheTTL ∧
    get_agents cachedCfg fsEmpty 12 = .ok (CVal.recs [], cachedCfg) :=
  ⟨rfl, rfl, by decide,
    (cache_ttl_behavior cachedCfg fsEmpty fsEmpty 10 12 (CVal.recs [])
      rfl rfl).1 (by decide)⟩

/-- Claim C7: once the store is constructed, constructing it again with a
different resolved root directory raises `ValueError` (and the stored
instance is untouched), while constructing it again with the same resolved
directory returns the same instance without error and without rebinding
any state. -/
theorem singleton_construction (d0 d1 d2 : Option Str) (c : Cfg)
    (h0 : constructConfig none d0 = .ok (c, c))
    (hne : d1.getD defaultClaudeDir ≠ c.claude_dir)
    (heq : d2.getD defaultClaudeDir = c.claude_dir) :
    (∃ msg, constructConfig (some c) d1 = .error msg) ∧
    constructConfig (some c) d2 = .ok (c, c) := by
  constructor
  · refine ⟨("ClaudeConfig already initialized with ".data ++ c.claude_dir
      ++ ", cannot reinitialize with ".data ++ d1.getD defaultClaudeDir), ?_⟩
    simp only [constructConfig]
    rw [if_neg (fun hh => hne hh.symm)]
  · simp only [constructConfig]
    rw [if_pos heq.symm]

theorem singleton_construction_witness :
    constructConfig none (some sampleDir) =
      .ok (freshCfg sampleDir, freshCfg sampleDir) ∧
    (some otherDir).getD defaultClaudeDir ≠ (freshCfg sampleDir).claude_dir ∧
    (∃ msg, constructConfig (some (freshCfg sampleDir)) (some otherDir) =
      .error msg) ∧
    constructConfig (some (freshCfg sampleDir)) (some sampleDir) =
      .ok (freshCfg sampleDir, freshCfg sampleDir) :=
  ⟨rfl, by decide,
    (singleton_construction (some sampleDir) (some otherDir) (some sampleDir)
      (freshCfg sampleDir) rfl (by decide) rfl).1,
    (singleton_construction (some sampleDir) (some otherDir) (some sampleDir)
      (freshCfg sampleDir) rfl (by decide) rfl).2⟩

/-- Claim C8: on the successful settings path, every `env` entry whose key
contains `KEY`, `TOKEN`, or `SECRET` as a case-insensitive substring (the
code compares the uppercased key against the uppercase words) has its value
replaced by the fixed eight-bullet token regardless of length, every other
`env` entry keeps its value, and every non-`env` entry of the settings
mapping is unchanged. -/
theorem settings_masking (cfg : Cfg) (fs : FS) (now : Nat)
    (s env : List (Str × JVal))
    (hmiss : getCached cfg now settingsK = none)
    (hfile : fs.settingsFile = some (.ok s))
    (henv : alookup s envK = some (.jobj env)) :
    get_settings cfg fs now =
      (.settings (maskSettings s),
        setCached cfg now settingsK (.settings (maskSettings s))) ∧
    alookup (maskSettings s) envK = some (.jobj (maskEnvObj env)) ∧
    (∀ k v, alookup env k = some v →
      alookup (maskEnvObj env) k =
        some (if sensitiveKey k then JVal.jstr maskTok else v)) ∧
    (∀ k, k ≠ envK → alookup (maskSettings s) k = alookup s k) := by
  refine ⟨?_, ?_, ?_, ?_⟩
  · simp [get_settings, hmiss, hfile]
  · simp [maskSettings, henv, alookup_dictSet_self]
  · intro k v hkv
    rw [alookup_maskEnvObj, hkv]
    rfl
  · intro k hk
    simp [maskSettings, henv, alookup_dictSet_ne s envK k _ hk]

/-- The settings mapping of the specification example. -/
def sampleEnv : List (Str × JVal) :=
  [(("API_KEY".data), .jstr ("secret123".data)),
    (("NORMAL_VAR".data), .jstr ("value".data))]

/-- A settings object holding the sample `env` mapping. -/
def sampleSettings : List (Str × JVal) := [(envK, .jobj sampleEnv)]

/-- A filesystem snapshot whose settings file decodes to the sample
settings object. -/
def sampleSettingsFS : FS :=
  { agentsDir := none, skillsDir := none
    settingsFile := some (.ok sampleSettings) }

theorem settings_masking_witness :
    alookup sampleSettings envK = some (JVal.jobj sampleEnv) ∧
    sensitiveKey ("API_KEY".data) = true ∧
    sensitiveKey ("NORMAL_VAR".data) = false ∧
    get_settings sampleCfg sampleSettingsFS 0 =
      (.settings (maskSettings sampleSettings),
        setCached sampleCfg 0 settingsK
          (.settings (maskSettings sampleSettings))) :=
  ⟨rfl, by decide, by decide,
    (settings_masking sampleCfg sampleSettingsFS 0 sampleSettings sampleEnv
      rfl rfl rfl).1⟩

/-- Claim C9: on a cache miss, an absent settings file yields the empty
mapping without an error, and an invalid-JSON settings file yields,
without raising, a mapping whose only key is the `error` sentinel
describing the parse failure. -/
theorem settings_error_handling (cfg : Cfg) (fs : FS) (now : Nat)
    (hmiss : getCached cfg now settingsK = none) :
    (fs.settingsFile = none → get_settings cfg fs now = (.settings [], cfg)) ∧
    (∀ e, fs.settingsFile = some (.error e) →
      get_settings cfg fs now =
        (.settings [(errorK, .jstr (jsonErrMsg ++ e))], cfg) ∧
      ([(errorK, JVal.jstr (jsonErrMsg ++ e))].map Prod.fst) = [errorK]) := by
  constructor
  · intro h
    simp [get_settings, hmiss, h]
  · intro e h
    exact ⟨by simp [get_settings, hmiss, h], rfl⟩

/-- A filesystem snapshot whose settings file is present but malformed. -/
def badJsonFS : FS :=
  { agentsDir := none, skillsDir := none
    settingsFile := some (.error ("Expecting value".data)) }

theorem settings_error_witness :
    badJsonFS.settingsFile = some (.error ("Expecting value".data)) ∧
    get_settings sampleCfg badJsonFS 0 =
      (.settings [(errorK, .jstr (jsonErrMsg ++ "Expecting value".data))],
        sampleCfg) ∧
    get_settings sampleCfg fsEmpty 0 = (.settings [], sampleCfg) :=
  ⟨rfl,
    ((settings_error_handling sampleCfg badJsonFS 0 rfl).2
      ("Expecting value".data) rfl).1,
    (settings_error_handling sampleCfg fsEmpty 0 rfl).1 rfl⟩
